import Mathlib

/-!
# Leader election wrapper (pkg/leaderelection/leaderelection.go)

A shallow embedding of the Go package `leaderelection`: the constructor `New`, the three
closures it installs as `LeaderCallbacks`, and the query methods of `config`.

Go objects are heap cells reached through pointers; here they are plain records and every
effect is explicit state passing:

* `config` has the fields of the Go struct;
* `Mem` is what a closure built by `New` can touch: the `int64` cell `e.isLeader`, the
  output of the log sink, the state the caller's work callbacks act on, and a ghost trace
  of the work callbacks that were invoked;
* `Process` is one instance together with its surroundings; `Process.mem` and
  `Process.put` move between the two views.

The package delegates the election protocol itself to `k8s.io/client-go`; of that
dependency only the surface this file uses is present (`ClientGo`, `LeaseLock`,
`LeaderElector`); whether its lock constructor fails, and its elector constructor, are
parameters of `New`.
-/

namespace leaderelection

/-! ## Values from the Go standard library and logr -/

/-- A `time.Duration`: a signed count of nanoseconds. -/
abbrev Duration := Int

/-- The constant `time.Second`. -/
def Second : Duration := 1000000000

/-- The range of an `int64`, the representation of `time.Duration` and of `isLeader`. -/
def inInt64 (v : Int) : Prop := -(2 : Int) ^ 63 ≤ v ∧ v < (2 : Int) ^ 63

instance (v : Int) : Decidable (inInt64 v) := by
  unfold inInt64
  exact inferInstance

/-- A Go `error` value, identified with its message. -/
abbrev Error := String

/-- The function `errors.Wrapf` on a non-nil error: the formatted message, a colon, the cause. -/
def Wrapf (err : Error) (msg : String) : Error := msg ++ ": " ++ err

/-- Severity of a log line. -/
inductive Level where
  | info
  | error
  deriving DecidableEq, Repr

/-- One line handed to the log sink. -/
structure LogLine where
  level : Level
  err : Option Error
  msg : String
  values : List (String × String)
  deriving DecidableEq, Repr

/-- A `logr.Logger`: a sink name and the key/value pairs attached by `WithValues`. -/
structure Logger where
  sink : String
  values : List (String × String)
  deriving DecidableEq, Repr

/-- The method `Logger.WithValues(key, value)`. -/
def Logger.WithValues (l : Logger) (key value : String) : Logger :=
  { l with values := l.values ++ [(key, value)] }

/-- The method `Logger.Info(msg, keysAndValues...)`, appending to the sink output `out`. -/
def Logger.Info (l : Logger) (msg : String) (kvs : List (String × String))
    (out : List LogLine) : List LogLine :=
  out ++ [{ level := Level.info, err := none, msg := msg, values := l.values ++ kvs }]

/-- The method `Logger.Error(err, msg, keysAndValues...)`, appending to the sink output `out`. -/
def Logger.Error (l : Logger) (err : Error) (msg : String) (kvs : List (String × String))
    (out : List LogLine) : List LogLine :=
  out ++ [{ level := Level.error, err := some err, msg := msg, values := l.values ++ kvs }]

/-! ## The client-go surface used by the package -/

/-- A `kubernetes.Interface`, reduced to the two typed clients `New` asks it for. -/
structure KubeClient where
  coreV1 : Nat
  coordinationV1 : Nat
  deriving DecidableEq, Repr

/-- The method `kubeClient.CoreV1()`. -/
def KubeClient.CoreV1 (k : KubeClient) : Nat := k.coreV1

/-- The method `kubeClient.CoordinationV1()`. -/
def KubeClient.CoordinationV1 (k : KubeClient) : Nat := k.coordinationV1

/-- The struct `resourcelock.ResourceLockConfig`; `New` sets only `Identity`. -/
structure ResourceLockConfig where
  Identity : String
  deriving DecidableEq, Repr

/-- The constant `resourcelock.LeasesResourceLock`. -/
def LeasesResourceLock : String := "leases"

/-- Modelled from the spec: the lock type of client-go is not part of this package. Section 3
gives each candidate the `identity` it was constructed with; the lock returned by
`resourcelock.New` keeps the namespace, name, clients and lock configuration it was built
from. -/
structure LeaseLock where
  lockType : String
  ns : String
  name : String
  coreClient : Nat
  coordinationClient : Nat
  LockConfig : ResourceLockConfig
  deriving DecidableEq, Repr

/-- Modelled from the spec: the method `Identity()` of a lock of client-go reports the
candidate identity of section 3, the one in the lock configuration. -/
def LeaseLock.Identity (l : LeaseLock) : String := l.LockConfig.Identity

/-- Modelled from the spec: the type `leaderelection.LeaderElector` of client-go is not part
of this package. Section 3 gives the candidate an `observedLeader`, the last-known holder
identity, which is all `GetLeader` reads. -/
structure LeaderElector where
  observedLeader : String
  deriving DecidableEq, Repr

/-- Modelled from the spec: the method `LeaderElector.GetLeader()` of client-go; section 4.5
makes `currentLeaderIdentity()` return the last-observed value. -/
def LeaderElector.GetLeader (le : LeaderElector) : String × LeaderElector :=
  (le.observedLeader, le)

/-- The `*leaderelection.HealthzAdaptor` a configuration may carry as `WatchDog`. -/
structure HealthzAdaptor where
  le : Option LeaderElector
  deriving DecidableEq, Repr

/-- The method `HealthzAdaptor.SetLeaderElection(le)`. -/
def HealthzAdaptor.SetLeaderElection (wd : HealthzAdaptor) (le : LeaderElector) :
    HealthzAdaptor :=
  { wd with le := some le }

/-- The struct `leaderelection.LeaderCallbacks`; a Go func value is `none` when nil and
otherwise a transformer of the memory `σ` its body can reach. -/
structure LeaderCallbacks (σ : Type) where
  OnStartedLeading : Option (σ → σ)
  OnStoppedLeading : Option (σ → σ)
  OnNewLeader : Option (String → σ → σ)

/-- The struct `leaderelection.LeaderElectionConfig`. -/
structure LeaderElectionConfig (σ : Type) where
  Lock : LeaseLock
  LeaseDuration : Duration
  RenewDeadline : Duration
  RetryPeriod : Duration
  Callbacks : LeaderCallbacks σ
  WatchDog : Option HealthzAdaptor
  ReleaseOnCancel : Bool

/-- What the package cannot see of client-go: for which arguments `resourcelock.New`
returns an error (`none` means success), and the whole of
`leaderelection.NewLeaderElector`. -/
structure ClientGo (σ : Type) where
  lockError : String → String → String → Nat → Nat → ResourceLockConfig → Option Error
  NewLeaderElector : LeaderElectionConfig σ → Except Error LeaderElector

/-- The function `resourcelock.New`: an error when the library refuses, otherwise the lock
built from the arguments. -/
def resourcelockNew {σ : Type} (lib : ClientGo σ) (lockType ns name : String)
    (coreClient coordinationClient : Nat) (rlc : ResourceLockConfig) : Except Error LeaseLock :=
  match lib.lockError lockType ns name coreClient coordinationClient rlc with
  | some err => Except.error err
  | none =>
    Except.ok
      { lockType := lockType, ns := ns, name := name, coreClient := coreClient,
        coordinationClient := coordinationClient, LockConfig := rlc }

/-! ## Memory reached by the callbacks -/

/-- Which of the caller's two work callbacks was invoked. -/
inductive Work where
  | start
  | stop
  deriving DecidableEq, Repr

/-- Ghost record of one invocation of a work callback, with the value `IsLeader()` had
while the callback ran. -/
structure Call where
  work : Work
  sawLeader : Bool
  deriving DecidableEq, Repr

/-- The memory a closure built by `New` acts on. `W` is the state of the caller's
application, which only the work callbacks change. -/
structure Mem (W : Type) where
  isLeader : Int
  logged : List LogLine
  world : W
  calls : List Call

/-- The call `atomic.StoreInt64(&e.isLeader, v)`. -/
def atomicStoreInt64 {W : Type} (v : Int) (m : Mem W) : Mem W :=
  { m with isLeader := v }

/-- The call `atomic.LoadInt64(&e.isLeader)`. -/
def atomicLoadInt64 {W : Type} (m : Mem W) : Int × Mem W :=
  (m.isLeader, m)

/-- A call `f()` of a non-nil work callback. The callback is a Go closure of the caller: it
may ask the instance `IsLeader()`, so it is handed the answer it would get, and it acts
on the caller's state. The call is appended to the ghost trace. -/
def callWork {W : Type} (which : Work) (f : Bool → W → W) (m : Mem W) : Mem W :=
  let seen := (atomicLoadInt64 m).1 == 1
  { m with world := f seen m.world, calls := m.calls ++ [{ work := which, sawLeader := seen }] }

/-! ## The package -/

/-- The struct `config`. -/
structure config (W : Type) where
  name : String
  namespace_ : String
  startWork : Option (Bool → W → W)
  stopWork : Option (Bool → W → W)
  kubeClient : KubeClient
  lock : LeaseLock
  leaderElectionCfg : LeaderElectionConfig (Mem W)
  leaderElector : LeaderElector
  isLeader : Int
  log : Logger

/-- The closure `OnStartedLeading` of `New`, over the values of `e` it captures. -/
def OnStartedLeading {W : Type} (startWork : Option (Bool → W → W)) (log : Logger) :
    Mem W → Mem W := fun m =>
  let m := atomicStoreInt64 1 m
  let m := { m with logged := log.Info "started leading" [] m.logged }
  match startWork with
  | some f => callWork Work.start f m
  | none => m

/-- The closure `OnStoppedLeading` of `New`, over the values of `e` it captures. -/
def OnStoppedLeading {W : Type} (stopWork : Option (Bool → W → W)) (log : Logger) :
    Mem W → Mem W := fun m =>
  let m := atomicStoreInt64 0 m
  let m := { m with logged := log.Info "leadership lost, stopped leading" [] m.logged }
  match stopWork with
  | some f => callWork Work.stop f m
  | none => m

/-- The closure `OnNewLeader` of `New`, over the values of `e` it captures. -/
def OnNewLeader {W : Type} (lock : LeaseLock) (log : Logger) :
    String → Mem W → Mem W := fun identity m =>
  if identity = lock.Identity then
    { m with logged := log.Info "still leading" [] m.logged }
  else
    { m with logged :=
        log.Info "another instance has been elected as leader" [("leader", identity)] m.logged }

/-- The literal assigned to `e.leaderElectionCfg` in `New`. -/
def electionConfig {W : Type} (lock : LeaseLock) (startWork stopWork : Option (Bool → W → W))
    (log : Logger) : LeaderElectionConfig (Mem W) :=
  { Lock := lock
    ReleaseOnCancel := true
    LeaseDuration := 15 * Second
    RenewDeadline := 10 * Second
    RetryPeriod := 2 * Second
    Callbacks :=
      { OnStartedLeading := some (OnStartedLeading startWork log)
        OnStoppedLeading := some (OnStoppedLeading stopWork log)
        OnNewLeader := some (OnNewLeader lock log) }
    WatchDog := none }

/-- How a call of `New` ends: it returns the pair `(Interface, error)`, or the process
exits with a status code after writing to the log. -/
inductive Outcome (W : Type) where
  | ret (iface : Option (config W)) (err : Option Error)
  | exit (code : Int) (logged : List LogLine)

/-- The constructor `New`. -/
def New {W : Type} (lib : ClientGo (Mem W)) (name namespace_ : String) (kubeClient : KubeClient)
    (id : String) (startWork stopWork : Option (Bool → W → W)) (log : Logger) : Outcome W :=
  match resourcelockNew lib LeasesResourceLock namespace_ name kubeClient.CoreV1
      kubeClient.CoordinationV1 { Identity := id } with
  | Except.error err =>
    Outcome.ret none
      (some (Wrapf err ("error initializing resource lock: " ++ namespace_ ++ "/" ++ name)))
  | Except.ok lock =>
    let elog := log.WithValues "id" lock.Identity
    let cfg := electionConfig lock startWork stopWork elog
    match lib.NewLeaderElector cfg with
    | Except.error err =>
      Outcome.exit 1 (elog.Error err "failed to create leaderElector" [] [])
    | Except.ok le =>
      let cfg :=
        match cfg.WatchDog with
        | some wd => { cfg with WatchDog := some (wd.SetLeaderElection le) }
        | none => cfg
      Outcome.ret
        (some
          { name := name, namespace_ := namespace_, kubeClient := kubeClient, lock := lock,
            startWork := startWork, stopWork := stopWork, log := elog,
            leaderElectionCfg := cfg, leaderElector := le, isLeader := 0 })
        none

/-- One instance and its surroundings: the log sink output, the caller's state and the
ghost trace of work callbacks. -/
structure Process (W : Type) where
  e : config W
  logged : List LogLine
  world : W
  calls : List Call

/-- The memory of a process as the closures see it. -/
def Process.mem {W : Type} (p : Process W) : Mem W :=
  { isLeader := p.e.isLeader, logged := p.logged, world := p.world, calls := p.calls }

/-- Write a memory back into a process. -/
def Process.put {W : Type} (p : Process W) (m : Mem W) : Process W :=
  { e := { p.e with isLeader := m.isLeader }, logged := m.logged, world := m.world,
    calls := m.calls }

/-- A process right after `New` returned `e`: nothing called yet. -/
def Process.start {W : Type} (e : config W) (logged : List LogLine) (world : W) : Process W :=
  { e := e, logged := logged, world := world, calls := [] }

/-- The method `config.Name`. -/
def config.Name {W : Type} (e : config W) : String := e.name

/-- The method `config.Namespace`. -/
def config.Namespace {W : Type} (e : config W) : String := e.namespace_

/-- The method `config.ID`. -/
def config.ID {W : Type} (e : config W) : String := e.lock.Identity

/-- The method `config.IsLeader`, as a step of the process. -/
def IsLeader {W : Type} (p : Process W) : Bool × Process W :=
  let r := atomicLoadInt64 p.mem
  (r.1 == 1, p.put r.2)

/-- The method `config.GetLeader`, as a step of the process. -/
def GetLeader {W : Type} (p : Process W) : String × Process W :=
  let r := p.e.leaderElector.GetLeader
  (r.1, { p with e := { p.e with leaderElector := r.2 } })

/-- A callback event reaching the instance. The method `config.Run` only hands control to
the elector's `Run`, which calls the closures of the configuration; the events are those
calls. -/
inductive Event where
  | started
  | stopped
  | newLeader (identity : String)
  deriving DecidableEq, Repr

/-- Delivery of one event: the elector calls the closure stored in the configuration. -/
def deliver {W : Type} (ev : Event) (p : Process W) : Process W :=
  match ev with
  | Event.started =>
    match p.e.leaderElectionCfg.Callbacks.OnStartedLeading with
    | some cb => p.put (cb p.mem)
    | none => p
  | Event.stopped =>
    match p.e.leaderElectionCfg.Callbacks.OnStoppedLeading with
    | some cb => p.put (cb p.mem)
    | none => p
  | Event.newLeader identity =>
    match p.e.leaderElectionCfg.Callbacks.OnNewLeader with
    | some cb => p.put (cb identity p.mem)
    | none => p

/-- Delivery of a finite sequence of events, in order. -/
def deliverAll {W : Type} (evs : List Event) (p : Process W) : Process W :=
  evs.foldl (fun q ev => deliver ev q) p

/-! ## Vocabulary of the statements -/

/-- The events that move the instance between follower and leader. -/
def Event.isTransition : Event → Bool
  | Event.started => true
  | Event.stopped => true
  | Event.newLeader _ => false

/-- Number of invocations of one work callback in a ghost trace. -/
def countWork (w : Work) (calls : List Call) : Nat :=
  (calls.filter (fun c => decide (c.work = w))).length

/-- The instance stores the callbacks `New` builds over the instance's own fields. -/
def Wired {W : Type} (e : config W) : Prop :=
  e.leaderElectionCfg = electionConfig e.lock e.startWork e.stopWork e.log

/-- Run a query `n` times in a row, collecting the answers. -/
def callN {W α : Type} (q : Process W → α × Process W) : Nat → Process W → List α × Process W
  | 0, p => ([], p)
  | n + 1, p =>
    let r := q p
    let rest := callN q n r.2
    (r.1 :: rest.1, rest.2)

/-- Modelled from the spec: the validation client-go performs in `NewLeaderElector` is not
part of this package. Section 5 requires `retryPeriod < renewDeadline < leaseDuration` and
section 7 makes an invalid duration ordering or an empty identity a configuration error. -/
def specElectorError {σ : Type} (lec : LeaderElectionConfig σ) : Option Error :=
  if ¬ (lec.RetryPeriod < lec.RenewDeadline ∧ lec.RenewDeadline < lec.LeaseDuration) then
    some "invalid duration ordering"
  else if lec.Lock.Identity = "" then
    some "Lock identity is empty"
  else
    none

/-- Modelled from the spec: `NewLeaderElector` of client-go, refusing what section 7 calls a
configuration error and otherwise returning an elector that has observed no leader. -/
def specNewLeaderElector {σ : Type} (lec : LeaderElectionConfig σ) :
    Except Error LeaderElector :=
  match specElectorError lec with
  | some err => Except.error err
  | none => Except.ok { observedLeader := "" }

/-- A client-go whose lock constructor never fails and whose elector constructor validates
the configuration as the spec describes. -/
def specLib (σ : Type) : ClientGo σ :=
  { lockError := fun _ _ _ _ _ _ => none
    NewLeaderElector := specNewLeaderElector }

/-- A client-go whose lock constructor always fails. -/
def brokenLockLib (σ : Type) : ClientGo σ :=
  { lockError := fun _ _ _ _ _ _ => some "invalid lock type"
    NewLeaderElector := specNewLeaderElector }

/-- What the caller's state is after a sequence of events when every started event runs
start-work once, seeing the instance lead, every stopped event runs stop-work once, seeing
it not lead, and nothing else touches that state. -/
def replayWork {W : Type} (f g : Bool → W → W) : List Event → W → W
  | [], w => w
  | Event.started :: evs, w => replayWork f g evs (f true w)
  | Event.stopped :: evs, w => replayWork f g evs (g false w)
  | Event.newLeader _ :: evs, w => replayWork f g evs w

/-- A logger with nothing attached. -/
def rootLogger : Logger := { sink := "setup", values := [] }

/-- A kube client handle. -/
def demoClient : KubeClient := { coreV1 := 1, coordinationV1 := 2 }

/-- A start-work callback on a counter: it adds 10 when it sees the instance leading, 1
otherwise. -/
def demoStart : Bool → Nat → Nat := fun seen w => if seen then w + 10 else w + 1

/-- A stop-work callback on a counter: it adds 100 when it sees the instance not leading,
1000 otherwise. -/
def demoStop : Bool → Nat → Nat := fun seen w => if seen then w + 1000 else w + 100

/-- The instance `New` returns for election `kyverno` in namespace `kyverno-system` and
identity `pod-a`, with the two demo callbacks. -/
def demoInstance : config Nat :=
  { name := "kyverno"
    namespace_ := "kyverno-system"
    startWork := some demoStart
    stopWork := some demoStop
    kubeClient := demoClient
    lock :=
      { lockType := LeasesResourceLock, ns := "kyverno-system", name := "kyverno",
        coreClient := 1, coordinationClient := 2, LockConfig := { Identity := "pod-a" } }
    leaderElectionCfg :=
      electionConfig
        { lockType := LeasesResourceLock, ns := "kyverno-system", name := "kyverno",
          coreClient := 1, coordinationClient := 2, LockConfig := { Identity := "pod-a" } }
        (some demoStart) (some demoStop) { sink := "setup", values := [("id", "pod-a")] }
    leaderElector := { observedLeader := "" }
    isLeader := 0
    log := { sink := "setup", values := [("id", "pod-a")] } }

/-- The process of `demoInstance` after one round of leading: started, then stopped. -/
def demoRound : Process Nat :=
  deliverAll [Event.started, Event.stopped] (Process.start demoInstance [] 0)

/-- A second instance: election `reports` in namespace `default`, identity `pod-b`, no work
callbacks, another client and logger. -/
def otherInstance : config Nat :=
  { name := "reports"
    namespace_ := "default"
    startWork := none
    stopWork := none
    kubeClient := { coreV1 := 7, coordinationV1 := 8 }
    lock :=
      { lockType := LeasesResourceLock, ns := "default", name := "reports",
        coreClient := 7, coordinationClient := 8, LockConfig := { Identity := "pod-b" } }
    leaderElectionCfg :=
      electionConfig
        { lockType := LeasesResourceLock, ns := "default", name := "reports",
          coreClient := 7, coordinationClient := 8, LockConfig := { Identity := "pod-b" } }
        none none { sink := "reports", values := [("app", "reports"), ("id", "pod-b")] }
    leaderElector := { observedLeader := "" }
    isLeader := 0
    log := { sink := "reports", values := [("app", "reports"), ("id", "pod-b")] } }

/-! ## Facts about the embedding -/

theorem demoInstance_built :
    New (specLib (Mem Nat)) "kyverno" "kyverno-system" demoClient "pod-a" (some demoStart)
      (some demoStop) rootLogger = Outcome.ret (some demoInstance) none := by
  rfl

theorem New_ret_inv {W : Type} {lib : ClientGo (Mem W)} {name namespace_ : String}
    {kubeClient : KubeClient} {id : String} {startWork stopWork : Option (Bool → W → W)}
    {log : Logger} {e : config W} {err : Option Error}
    (h : New lib name namespace_ kubeClient id startWork stopWork log
      = Outcome.ret (some e) err) :
    err = none ∧ e.name = name ∧ e.namespace_ = namespace_ ∧ e.kubeClient = kubeClient ∧
      e.lock.LockConfig.Identity = id ∧ e.startWork = startWork ∧ e.stopWork = stopWork ∧
      e.isLeader = 0 ∧ e.log = log.WithValues "id" id ∧ Wired e := by
  unfold New resourcelockNew at h
  split at h
  · simp at h
  · rename_i lock hlock
    split at hlock
    · simp at hlock
    · simp only [Except.ok.injEq] at hlock
      subst hlock
      dsimp only at h
      split at h
      · simp at h
      · simp only [Outcome.ret.injEq, Option.some.injEq] at h
        obtain ⟨he, herr⟩ := h
        subst he
        refine ⟨herr.symm, rfl, rfl, rfl, rfl, rfl, rfl, rfl, rfl, ?_⟩
        rfl

theorem Process.put_mem {W : Type} (p : Process W) : p.put p.mem = p := by
  rfl

theorem deliver_started {W : Type} (p : Process W) (h : Wired p.e) :
    deliver Event.started p = p.put (OnStartedLeading p.e.startWork p.e.log p.mem) := by
  unfold Wired at h
  simp [deliver, h, electionConfig]

theorem deliver_stopped {W : Type} (p : Process W) (h : Wired p.e) :
    deliver Event.stopped p = p.put (OnStoppedLeading p.e.stopWork p.e.log p.mem) := by
  unfold Wired at h
  simp [deliver, h, electionConfig]

theorem deliver_newLeader {W : Type} (p : Process W) (identity : String) (h : Wired p.e) :
    deliver (Event.newLeader identity) p
      = p.put (OnNewLeader p.e.lock p.e.log identity p.mem) := by
  unfold Wired at h
  simp [deliver, h, electionConfig]

theorem Wired_put {W : Type} (p : Process W) (m : Mem W) (h : Wired p.e) :
    Wired (p.put m).e := by
  unfold Wired at *
  simpa [Process.put] using h

theorem Wired_deliver {W : Type} (ev : Event) (p : Process W) (h : Wired p.e) :
    Wired (deliver ev p).e := by
  cases ev with
  | started => rw [deliver_started p h]; exact Wired_put p _ h
  | stopped => rw [deliver_stopped p h]; exact Wired_put p _ h
  | newLeader identity => rw [deliver_newLeader p identity h]; exact Wired_put p _ h

theorem deliverAll_cons {W : Type} (ev : Event) (evs : List Event) (p : Process W) :
    deliverAll (ev :: evs) p = deliverAll evs (deliver ev p) := by
  rfl

theorem Wired_deliverAll {W : Type} (evs : List Event) (p : Process W) (h : Wired p.e) :
    Wired (deliverAll evs p).e := by
  induction evs generalizing p with
  | nil => exact h
  | cons ev evs ih => rw [deliverAll_cons]; exact ih _ (Wired_deliver ev p h)

theorem deliver_frame {W : Type} (ev : Event) (p : Process W) :
    (deliver ev p).e = { p.e with isLeader := (deliver ev p).e.isLeader } := by
  cases ev <;> simp only [deliver] <;> split <;> rfl

theorem deliverAll_frame {W : Type} (evs : List Event) (p : Process W) :
    (deliverAll evs p).e = { p.e with isLeader := (deliverAll evs p).e.isLeader } := by
  induction evs generalizing p with
  | nil => rfl
  | cons ev evs ih =>
    rw [deliverAll_cons, ih (deliver ev p), deliver_frame ev p]

theorem deliver_started_some {W : Type} (p : Process W) (f : Bool → W → W) (hw : Wired p.e)
    (hs : p.e.startWork = some f) :
    deliver Event.started p =
      { e := { p.e with isLeader := 1 }
        logged := p.e.log.Info "started leading" [] p.logged
        world := f true p.world
        calls := p.calls ++ [{ work := Work.start, sawLeader := true }] } := by
  rw [deliver_started p hw, hs]
  rfl

theorem deliver_started_none {W : Type} (p : Process W) (hw : Wired p.e)
    (hs : p.e.startWork = none) :
    deliver Event.started p =
      { e := { p.e with isLeader := 1 }
        logged := p.e.log.Info "started leading" [] p.logged
        world := p.world
        calls := p.calls } := by
  rw [deliver_started p hw, hs]
  rfl

theorem deliver_stopped_some {W : Type} (p : Process W) (g : Bool → W → W) (hw : Wired p.e)
    (hs : p.e.stopWork = some g) :
    deliver Event.stopped p =
      { e := { p.e with isLeader := 0 }
        logged := p.e.log.Info "leadership lost, stopped leading" [] p.logged
        world := g false p.world
        calls := p.calls ++ [{ work := Work.stop, sawLeader := false }] } := by
  rw [deliver_stopped p hw, hs]
  rfl

theorem deliver_stopped_none {W : Type} (p : Process W) (hw : Wired p.e)
    (hs : p.e.stopWork = none) :
    deliver Event.stopped p =
      { e := { p.e with isLeader := 0 }
        logged := p.e.log.Info "leadership lost, stopped leading" [] p.logged
        world := p.world
        calls := p.calls } := by
  rw [deliver_stopped p hw, hs]
  rfl

theorem deliver_newLeader_eq {W : Type} (p : Process W) (identity : String) (hw : Wired p.e) :
    deliver (Event.newLeader identity) p =
      { p with logged :=
          (if identity = p.e.lock.Identity then p.e.log.Info "still leading" [] p.logged
          else (p.e.log.Info "another instance has been elected as leader"
            [("leader", identity)] p.logged)) } := by
  rw [deliver_newLeader p identity hw]
  unfold OnNewLeader
  by_cases hid : identity = p.e.lock.Identity
  · simp only [hid, if_true]
    rfl
  · simp only [hid, if_false]
    rfl

theorem IsLeader_deliver_started {W : Type} (p : Process W) (hw : Wired p.e) :
    (IsLeader (deliver Event.started p)).1 = true := by
  cases hs : p.e.startWork with
  | none => rw [deliver_started_none p hw hs]; rfl
  | some f => rw [deliver_started_some p f hw hs]; rfl

theorem IsLeader_deliver_stopped {W : Type} (p : Process W) (hw : Wired p.e) :
    (IsLeader (deliver Event.stopped p)).1 = false := by
  cases hs : p.e.stopWork with
  | none => rw [deliver_stopped_none p hw hs]; rfl
  | some g => rw [deliver_stopped_some p g hw hs]; rfl

theorem IsLeader_deliver_newLeader {W : Type} (p : Process W) (identity : String)
    (hw : Wired p.e) :
    (IsLeader (deliver (Event.newLeader identity) p)).1 = (IsLeader p).1 := by
  rw [deliver_newLeader_eq p identity hw]
  rfl

theorem IsLeader_deliverAll {W : Type} (evs : List Event) (p : Process W) (hw : Wired p.e) :
    (IsLeader (deliverAll evs p)).1 =
      (((evs.filter Event.isTransition).getLast?).map
        (fun ev => decide (ev = Event.started))).getD (IsLeader p).1 := by
  induction evs generalizing p with
  | nil => rfl
  | cons ev evs ih =>
    rw [deliverAll_cons, ih (deliver ev p) (Wired_deliver ev p hw)]
    cases ev with
    | started =>
      rw [IsLeader_deliver_started p hw]
      simp only [List.filter_cons, Event.isTransition, if_true, List.getLast?_cons]
      cases (List.filter Event.isTransition evs).getLast? <;> simp
    | stopped =>
      rw [IsLeader_deliver_stopped p hw]
      simp only [List.filter_cons, Event.isTransition, if_true, List.getLast?_cons]
      cases (List.filter Event.isTransition evs).getLast? <;> simp
    | newLeader identity =>
      rw [IsLeader_deliver_newLeader p identity hw]
      simp [List.filter_cons, Event.isTransition]

theorem countWork_append (w : Work) (xs ys : List Call) :
    countWork w (xs ++ ys) = countWork w xs + countWork w ys := by
  simp [countWork]

theorem calls_deliverAll {W : Type} (f g : Bool → W → W) (evs : List Event) (p : Process W)
    (hw : Wired p.e) (hs : p.e.startWork = some f) (ht : p.e.stopWork = some g) :
    countWork Work.start (deliverAll evs p).calls
        = countWork Work.start p.calls + evs.count Event.started ∧
      countWork Work.stop (deliverAll evs p).calls
        = countWork Work.stop p.calls + evs.count Event.stopped := by
  induction evs generalizing p with
  | nil => simp [deliverAll]
  | cons ev evs ih =>
    have hw2 := Wired_deliver ev p hw
    have hfr := deliver_frame ev p
    have hs2 : (deliver ev p).e.startWork = some f := by rw [hfr]; exact hs
    have ht2 : (deliver ev p).e.stopWork = some g := by rw [hfr]; exact ht
    rw [deliverAll_cons]
    obtain ⟨h1, h2⟩ := ih (deliver ev p) hw2 hs2 ht2
    rw [h1, h2]
    cases ev with
    | started =>
      rw [deliver_started_some p f hw hs]
      simp [countWork, List.count_cons]
      omega
    | stopped =>
      rw [deliver_stopped_some p g hw ht]
      simp [countWork, List.count_cons]
      omega
    | newLeader identity =>
      rw [deliver_newLeader_eq p identity hw]
      simp [List.count_cons]

theorem world_deliverAll {W : Type} (f g : Bool → W → W) (evs : List Event) (p : Process W)
    (hw : Wired p.e) (hs : p.e.startWork = some f) (ht : p.e.stopWork = some g) :
    (deliverAll evs p).world = replayWork f g evs p.world := by
  induction evs generalizing p with
  | nil => rfl
  | cons ev evs ih =>
    have hw2 := Wired_deliver ev p hw
    have hfr := deliver_frame ev p
    have hs2 : (deliver ev p).e.startWork = some f := by rw [hfr]; exact hs
    have ht2 : (deliver ev p).e.stopWork = some g := by rw [hfr]; exact ht
    rw [deliverAll_cons, ih (deliver ev p) hw2 hs2 ht2]
    cases ev with
    | started => rw [deliver_started_some p f hw hs]; rfl
    | stopped => rw [deliver_stopped_some p g hw ht]; rfl
    | newLeader identity => rw [deliver_newLeader_eq p identity hw]; rfl

theorem callN_readonly {W α : Type} (q : Process W → α × Process W) (p : Process W)
    (hq : (q p).2 = p) (n : Nat) : callN q n p = (List.replicate n (q p).1, p) := by
  induction n with
  | zero => rfl
  | succ n ih => simp [callN, hq, ih, List.replicate_succ]

theorem New_of_elector_error {W : Type} (lib : ClientGo (Mem W)) (name namespace_ : String)
    (kubeClient : KubeClient) (id : String) (startWork stopWork : Option (Bool → W → W))
    (log : Logger) (cause : Error)
    (hl : lib.lockError LeasesResourceLock namespace_ name kubeClient.CoreV1
      kubeClient.CoordinationV1 { Identity := id } = none)
    (he : lib.NewLeaderElector
        (electionConfig
          { lockType := LeasesResourceLock, ns := namespace_, name := name,
            coreClient := kubeClient.CoreV1, coordinationClient := kubeClient.CoordinationV1,
            LockConfig := { Identity := id } }
          startWork stopWork (log.WithValues "id" id)) = Except.error cause) :
    New lib name namespace_ kubeClient id startWork stopWork log =
      Outcome.exit 1
        ((log.WithValues "id" id).Error cause "failed to create leaderElector" [] []) := by
  simp [New, resourcelockNew, hl, LeaseLock.Identity, he]

theorem otherInstance_built :
    New (specLib (Mem Nat)) "reports" "default" { coreV1 := 7, coordinationV1 := 8 } "pod-b"
      none none { sink := "reports", values := [("app", "reports")] }
      = Outcome.ret (some otherInstance) none := by
  rfl

theorem New_broken_lock_returns_error :
    New (brokenLockLib (Mem Nat)) "kyverno" "kyverno-system" demoClient "pod-a" (some demoStart)
        (some demoStop) rootLogger
      = Outcome.ret none
          (some "error initializing resource lock: kyverno-system/kyverno: invalid lock type") := by
  rfl

/-! ## The claims -/

/-- C2: for an instance returned by `New` and any finite sequence of callback events
delivered to it, `IsLeader()` is true afterwards exactly when the sequence has a started
or stopped event and the last of them is `OnStartedLeading`; on the fresh instance
`IsLeader()` is false. -/
theorem IsLeader_iff_last_transition_started {W : Type} (lib : ClientGo (Mem W))
    (name namespace_ : String) (kubeClient : KubeClient) (id : String)
    (startWork stopWork : Option (Bool → W → W)) (log : Logger) (e : config W)
    (err : Option Error)
    (h : New lib name namespace_ kubeClient id startWork stopWork log
      = Outcome.ret (some e) err)
    (logged : List LogLine) (world : W) (evs : List Event) :
    ((IsLeader (deliverAll evs (Process.start e logged world))).1 = true ↔
        (evs.filter Event.isTransition).getLast? = some Event.started) ∧
      (IsLeader (Process.start e logged world)).1 = false := by
  obtain ⟨-, -, -, -, -, -, -, h0, -, hw⟩ := New_ret_inv h
  have hfresh : (IsLeader (Process.start e logged world)).1 = false := by
    simp [IsLeader, atomicLoadInt64, Process.mem, Process.start, h0]
  refine ⟨?_, hfresh⟩
  rw [IsLeader_deliverAll evs (Process.start e logged world) hw, hfresh]
  cases (List.filter Event.isTransition evs).getLast? <;> simp

theorem IsLeader_iff_last_transition_started_witness :
    ((IsLeader (deliverAll [Event.started, Event.stopped, Event.started, Event.newLeader "pod-b"]
          (Process.start demoInstance [] 0))).1 = true ↔
        ([Event.started, Event.stopped, Event.started, Event.newLeader "pod-b"].filter
          Event.isTransition).getLast? = some Event.started) ∧
      (IsLeader (Process.start demoInstance [] (0 : Nat))).1 = false :=
  IsLeader_iff_last_transition_started (specLib (Mem Nat)) "kyverno" "kyverno-system" demoClient
    "pod-a" (some demoStart) (some demoStop) rootLogger demoInstance none demoInstance_built [] 0
    [Event.started, Event.stopped, Event.started, Event.newLeader "pod-b"]

/-- C3: for an instance built by `New` with a start-work and a stop-work callback, in every
reachable state an `OnStartedLeading` event runs start-work exactly once and stop-work not
at all (the caller's state becomes start-work applied once to it, and the trace of
invocations gains one start-work entry and no stop-work entry), an `OnStoppedLeading` event
runs stop-work exactly once and start-work not at all, and after any event sequence the
caller's state is the one obtained by running start-work once per started event and
stop-work once per stopped event, in order, with as many invocations of each as there are
events of its kind. -/
theorem work_callbacks_once_per_transition {W : Type} (lib : ClientGo (Mem W))
    (name namespace_ : String) (kubeClient : KubeClient) (id : String)
    (f g : Bool → W → W) (log : Logger) (e : config W) (err : Option Error)
    (h : New lib name namespace_ kubeClient id (some f) (some g) log
      = Outcome.ret (some e) err)
    (logged : List LogLine) (world : W) (evs : List Event) :
    ((deliver Event.started (deliverAll evs (Process.start e logged world))).world
          = f true (deliverAll evs (Process.start e logged world)).world ∧
      countWork Work.start (deliver Event.started (deliverAll evs (Process.start e logged world))).calls
          = countWork Work.start (deliverAll evs (Process.start e logged world)).calls + 1 ∧
      countWork Work.stop (deliver Event.started (deliverAll evs (Process.start e logged world))).calls
          = countWork Work.stop (deliverAll evs (Process.start e logged world)).calls) ∧
    ((deliver Event.stopped (deliverAll evs (Process.start e logged world))).world
          = g false (deliverAll evs (Process.start e logged world)).world ∧
      countWork Work.stop (deliver Event.stopped (deliverAll evs (Process.start e logged world))).calls
          = countWork Work.stop (deliverAll evs (Process.start e logged world)).calls + 1 ∧
      countWork Work.start (deliver Event.stopped (deliverAll evs (Process.start e logged world))).calls
          = countWork Work.start (deliverAll evs (Process.start e logged world)).calls) ∧
    (deliverAll evs (Process.start e logged world)).world = replayWork f g evs world ∧
    countWork Work.start (deliverAll evs (Process.start e logged world)).calls
      = evs.count Event.started ∧
    countWork Work.stop (deliverAll evs (Process.start e logged world)).calls
      = evs.count Event.stopped := by
  obtain ⟨-, -, -, -, -, hs, ht, -, -, hw⟩ := New_ret_inv h
  have hw0 : Wired (Process.start e logged world).e := hw
  have hs0 : (Process.start e logged world).e.startWork = some f := hs
  have ht0 : (Process.start e logged world).e.stopWork = some g := ht
  have hwp := Wired_deliverAll evs _ hw0
  have hfr := deliverAll_frame evs (Process.start e logged world)
  have hsp : (deliverAll evs (Process.start e logged world)).e.startWork = some f := by
    rw [hfr]; exact hs0
  have htp : (deliverAll evs (Process.start e logged world)).e.stopWork = some g := by
    rw [hfr]; exact ht0
  have hseq := calls_deliverAll f g evs _ hw0 hs0 ht0
  have hworld := world_deliverAll f g evs _ hw0 hs0 ht0
  refine ⟨?_, ?_, hworld, ?_, ?_⟩
  · rw [deliver_started_some _ f hwp hsp]
    simp [countWork]
  · rw [deliver_stopped_some _ g hwp htp]
    simp [countWork]
  · rw [hseq.1]; simp [Process.start, countWork]
  · rw [hseq.2]; simp [Process.start, countWork]

theorem work_callbacks_once_per_transition_witness :
    ((deliver Event.started (deliverAll [Event.started, Event.newLeader "pod-a", Event.stopped, Event.started]
            (Process.start demoInstance [] 0))).world
          = demoStart true (deliverAll [Event.started, Event.newLeader "pod-a", Event.stopped, Event.started]
            (Process.start demoInstance [] 0)).world ∧
      countWork Work.start (deliver Event.started (deliverAll [Event.started, Event.newLeader "pod-a", Event.stopped, Event.started]
            (Process.start demoInstance [] 0))).calls
          = countWork Work.start (deliverAll [Event.started, Event.newLeader "pod-a", Event.stopped, Event.started]
            (Process.start demoInstance [] 0)).calls + 1 ∧
      countWork Work.stop (deliver Event.started (deliverAll [Event.started, Event.newLeader "pod-a", Event.stopped, Event.started]
            (Process.start demoInstance [] 0))).calls
          = countWork Work.stop (deliverAll [Event.started, Event.newLeader "pod-a", Event.stopped, Event.started]
            (Process.start demoInstance [] 0)).calls) ∧
    ((deliver Event.stopped (deliverAll [Event.started, Event.newLeader "pod-a", Event.stopped, Event.started]
            (Process.start demoInstance [] 0))).world
          = demoStop false (deliverAll [Event.started, Event.newLeader "pod-a", Event.stopped, Event.started]
            (Process.start demoInstance [] 0)).world ∧
      countWork Work.stop (deliver Event.stopped (deliverAll [Event.started, Event.newLeader "pod-a", Event.stopped, Event.started]
            (Process.start demoInstance [] 0))).calls
          = countWork Work.stop (deliverAll [Event.started, Event.newLeader "pod-a", Event.stopped, Event.started]
            (Process.start demoInstance [] 0)).calls + 1 ∧
      countWork Work.start (deliver Event.stopped (deliverAll [Event.started, Event.newLeader "pod-a", Event.stopped, Event.started]
            (Process.start demoInstance [] 0))).calls
          = countWork Work.start (deliverAll [Event.started, Event.newLeader "pod-a", Event.stopped, Event.started]
            (Process.start demoInstance [] 0)).calls) ∧
    (deliverAll [Event.started, Event.newLeader "pod-a", Event.stopped, Event.started]
            (Process.start demoInstance [] 0)).world = 120 ∧
    countWork Work.start (deliverAll [Event.started, Event.newLeader "pod-a", Event.stopped, Event.started]
            (Process.start demoInstance [] 0)).calls
      = [Event.started, Event.newLeader "pod-a", Event.stopped, Event.started].count Event.started ∧
    countWork Work.stop (deliverAll [Event.started, Event.newLeader "pod-a", Event.stopped, Event.started]
            (Process.start demoInstance [] 0)).calls
      = [Event.started, Event.newLeader "pod-a", Event.stopped, Event.started].count Event.stopped :=
  work_callbacks_once_per_transition (specLib (Mem Nat)) "kyverno" "kyverno-system" demoClient
    "pod-a" demoStart demoStop rootLogger demoInstance none demoInstance_built [] 0
    [Event.started, Event.newLeader "pod-a", Event.stopped, Event.started]

/-- C5: whatever the arguments, the election configuration `New` builds has
`RetryPeriod` 2s, `RenewDeadline` 10s and `LeaseDuration` 15s as exact `int64` nanosecond
counts, so `RetryPeriod < RenewDeadline < LeaseDuration`; this holds of the literal for any
lock, callbacks and logger, and of the configuration of every returned instance. -/
theorem New_durations_ordered {W : Type} (lib : ClientGo (Mem W))
    (name namespace_ : String) (kubeClient : KubeClient) (id : String)
    (startWork stopWork : Option (Bool → W → W)) (log : Logger) (e : config W)
    (err : Option Error)
    (h : New lib name namespace_ kubeClient id startWork stopWork log
      = Outcome.ret (some e) err) :
    (∀ (lock : LeaseLock) (sw stw : Option (Bool → W → W)) (lg : Logger),
        (electionConfig lock sw stw lg).RetryPeriod < (electionConfig lock sw stw lg).RenewDeadline ∧
        (electionConfig lock sw stw lg).RenewDeadline
          < (electionConfig lock sw stw lg).LeaseDuration) ∧
      e.leaderElectionCfg.RetryPeriod = 2000000000 ∧
      e.leaderElectionCfg.RenewDeadline = 10000000000 ∧
      e.leaderElectionCfg.LeaseDuration = 15000000000 ∧
      e.leaderElectionCfg.RetryPeriod < e.leaderElectionCfg.RenewDeadline ∧
      e.leaderElectionCfg.RenewDeadline < e.leaderElectionCfg.LeaseDuration ∧
      inInt64 e.leaderElectionCfg.RetryPeriod ∧ inInt64 e.leaderElectionCfg.RenewDeadline ∧
      inInt64 e.leaderElectionCfg.LeaseDuration := by
  obtain ⟨-, -, -, -, -, -, -, -, -, hw⟩ := New_ret_inv h
  unfold Wired at hw
  rw [hw]
  refine ⟨?_, ?_⟩
  · intro lock sw stw lg
    simp [electionConfig, Second]
  · simp [electionConfig, Second, inInt64]

theorem New_durations_ordered_witness :
    (∀ (lock : LeaseLock) (sw stw : Option (Bool → Nat → Nat)) (lg : Logger),
        (electionConfig lock sw stw lg).RetryPeriod < (electionConfig lock sw stw lg).RenewDeadline ∧
        (electionConfig lock sw stw lg).RenewDeadline
          < (electionConfig lock sw stw lg).LeaseDuration) ∧
      demoInstance.leaderElectionCfg.RetryPeriod = 2000000000 ∧
      demoInstance.leaderElectionCfg.RenewDeadline = 10000000000 ∧
      demoInstance.leaderElectionCfg.LeaseDuration = 15000000000 ∧
      demoInstance.leaderElectionCfg.RetryPeriod < demoInstance.leaderElectionCfg.RenewDeadline ∧
      demoInstance.leaderElectionCfg.RenewDeadline < demoInstance.leaderElectionCfg.LeaseDuration ∧
      inInt64 demoInstance.leaderElectionCfg.RetryPeriod ∧
      inInt64 demoInstance.leaderElectionCfg.RenewDeadline ∧
      inInt64 demoInstance.leaderElectionCfg.LeaseDuration :=
  New_durations_ordered (specLib (Mem Nat)) "kyverno" "kyverno-system" demoClient "pod-a"
    (some demoStart) (some demoStop) rootLogger demoInstance none demoInstance_built

/-- C6, as the code has it: the three durations are not options of `New`. Any two successful
constructions, whatever their arguments, yield configurations with the same
`LeaseDuration`, `RenewDeadline` and `RetryPeriod`, namely 15s, 10s and 2s. -/
theorem New_durations_fixed {W₁ W₂ : Type} (lib₁ : ClientGo (Mem W₁)) (lib₂ : ClientGo (Mem W₂))
    (name₁ namespace₁ name₂ namespace₂ : String) (kubeClient₁ kubeClient₂ : KubeClient)
    (id₁ id₂ : String) (startWork₁ stopWork₁ : Option (Bool → W₁ → W₁))
    (startWork₂ stopWork₂ : Option (Bool → W₂ → W₂)) (log₁ log₂ : Logger)
    (e₁ : config W₁) (e₂ : config W₂) (err₁ err₂ : Option Error)
    (h₁ : New lib₁ name₁ namespace₁ kubeClient₁ id₁ startWork₁ stopWork₁ log₁
      = Outcome.ret (some e₁) err₁)
    (h₂ : New lib₂ name₂ namespace₂ kubeClient₂ id₂ startWork₂ stopWork₂ log₂
      = Outcome.ret (some e₂) err₂) :
    e₁.leaderElectionCfg.LeaseDuration = e₂.leaderElectionCfg.LeaseDuration ∧
      e₁.leaderElectionCfg.RenewDeadline = e₂.leaderElectionCfg.RenewDeadline ∧
      e₁.leaderElectionCfg.RetryPeriod = e₂.leaderElectionCfg.RetryPeriod ∧
      e₁.leaderElectionCfg.LeaseDuration = 15 * Second ∧
      e₁.leaderElectionCfg.RenewDeadline = 10 * Second ∧
      e₁.leaderElectionCfg.RetryPeriod = 2 * Second := by
  obtain ⟨-, -, -, -, -, -, -, -, -, hw₁⟩ := New_ret_inv h₁
  obtain ⟨-, -, -, -, -, -, -, -, -, hw₂⟩ := New_ret_inv h₂
  unfold Wired at hw₁ hw₂
  rw [hw₁, hw₂]
  simp [electionConfig]

theorem New_durations_fixed_witness :
    demoInstance.leaderElectionCfg.LeaseDuration = otherInstance.leaderElectionCfg.LeaseDuration ∧
      demoInstance.leaderElectionCfg.RenewDeadline
        = otherInstance.leaderElectionCfg.RenewDeadline ∧
      demoInstance.leaderElectionCfg.RetryPeriod = otherInstance.leaderElectionCfg.RetryPeriod ∧
      demoInstance.leaderElectionCfg.LeaseDuration = 15 * Second ∧
      demoInstance.leaderElectionCfg.RenewDeadline = 10 * Second ∧
      demoInstance.leaderElectionCfg.RetryPeriod = 2 * Second :=
  New_durations_fixed (specLib (Mem Nat)) (specLib (Mem Nat)) "kyverno" "kyverno-system"
    "reports" "default" demoClient { coreV1 := 7, coordinationV1 := 8 } "pod-a" "pod-b"
    (some demoStart) (some demoStop) none none rootLogger
    { sink := "reports", values := [("app", "reports")] } demoInstance otherInstance none none
    demoInstance_built otherInstance_built

/-- C6 as stated fails: a caller who wants a lease of 30s, a renew deadline of 20s and a
retry period of 5s has no way to supply them. The call building `demoInstance` yields
15s, 10s and 2s, and no call of `New` at all returns a configuration whose
`LeaseDuration` is 30s. -/
theorem durations_not_caller_supplied :
    (New (specLib (Mem Nat)) "kyverno" "kyverno-system" demoClient "pod-a" (some demoStart)
          (some demoStop) rootLogger = Outcome.ret (some demoInstance) none ∧
        demoInstance.leaderElectionCfg.LeaseDuration = 15 * Second ∧
        demoInstance.leaderElectionCfg.RenewDeadline = 10 * Second ∧
        demoInstance.leaderElectionCfg.RetryPeriod = 2 * Second) ∧
      ¬ ∃ (lib : ClientGo (Mem Nat)) (name namespace_ : String) (kubeClient : KubeClient)
          (id : String) (startWork stopWork : Option (Bool → Nat → Nat)) (log : Logger)
          (e : config Nat) (err : Option Error),
          New lib name namespace_ kubeClient id startWork stopWork log
              = Outcome.ret (some e) err ∧
            e.leaderElectionCfg.LeaseDuration = 30 * Second := by
  refine ⟨⟨rfl, rfl, rfl, rfl⟩, ?_⟩
  rintro ⟨lib, name, namespace_, kubeClient, id, startWork, stopWork, log, e, err, h, h30⟩
  obtain ⟨-, -, -, -, -, -, -, -, -, hw⟩ := New_ret_inv h
  unfold Wired at hw
  rw [hw] at h30
  simp [electionConfig, Second] at h30

/-- C7: in every state of a process, `IsLeader()` and `GetLeader()` leave the state as it
was, so any number of consecutive calls, with nothing delivered in between, all return the
value of the first call. -/
theorem queries_read_only {W : Type} (p : Process W) (n : Nat) :
    (IsLeader p).2 = p ∧ (GetLeader p).2 = p ∧
      callN IsLeader n p = (List.replicate n (IsLeader p).1, p) ∧
      callN GetLeader n p = (List.replicate n (GetLeader p).1, p) := by
  have h1 : (IsLeader p).2 = p := Process.put_mem p
  have h2 : (GetLeader p).2 = p := rfl
  exact ⟨h1, h2, callN_readonly IsLeader p h1 n, callN_readonly GetLeader p h2 n⟩

/-- C8: after a successful `New(name, namespace, kubeClient, id, ...)` the instance answers
`Name()` with `name`, `Namespace()` with `namespace` and `ID()` with `id`, and it still does
after any sequence of callback events. -/
theorem New_identity_stable {W : Type} (lib : ClientGo (Mem W))
    (name namespace_ : String) (kubeClient : KubeClient) (id : String)
    (startWork stopWork : Option (Bool → W → W)) (log : Logger) (e : config W)
    (err : Option Error)
    (h : New lib name namespace_ kubeClient id startWork stopWork log
      = Outcome.ret (some e) err)
    (logged : List LogLine) (world : W) (evs : List Event) :
    (e.Name = name ∧ e.Namespace = namespace_ ∧ e.ID = id) ∧
      (deliverAll evs (Process.start e logged world)).e.Name = name ∧
      (deliverAll evs (Process.start e logged world)).e.Namespace = namespace_ ∧
      (deliverAll evs (Process.start e logged world)).e.ID = id := by
  obtain ⟨-, hn, hns, -, hid, -, -, -, -, -⟩ := New_ret_inv h
  have hfr := deliverAll_frame evs (Process.start e logged world)
  refine ⟨⟨hn, hns, hid⟩, ?_, ?_, ?_⟩
  · rw [hfr]; exact hn
  · rw [hfr]; exact hns
  · rw [hfr]; exact hid

theorem New_identity_stable_witness :
    (demoInstance.Name = "kyverno" ∧ demoInstance.Namespace = "kyverno-system" ∧
        demoInstance.ID = "pod-a") ∧
      (deliverAll [Event.newLeader "pod-b", Event.started, Event.stopped]
          (Process.start demoInstance [] 0)).e.Name = "kyverno" ∧
      (deliverAll [Event.newLeader "pod-b", Event.started, Event.stopped]
          (Process.start demoInstance [] 0)).e.Namespace = "kyverno-system" ∧
      (deliverAll [Event.newLeader "pod-b", Event.started, Event.stopped]
          (Process.start demoInstance [] 0)).e.ID = "pod-a" :=
  New_identity_stable (specLib (Mem Nat)) "kyverno" "kyverno-system" demoClient "pod-a"
    (some demoStart) (some demoStop) rootLogger demoInstance none demoInstance_built [] 0
    [Event.newLeader "pod-b", Event.started, Event.stopped]

/-- C9: for an instance returned by `New`, in every reachable state and for every identity
string, handling `OnNewLeader(identity)` leaves every field of the instance (the
`isLeader` flag among them) and the caller's state unchanged and invokes no work callback;
all it does is append one info line to the log. -/
theorem OnNewLeader_informational {W : Type} (lib : ClientGo (Mem W))
    (name namespace_ : String) (kubeClient : KubeClient) (id : String)
    (startWork stopWork : Option (Bool → W → W)) (log : Logger) (e : config W)
    (err : Option Error)
    (h : New lib name namespace_ kubeClient id startWork stopWork log
      = Outcome.ret (some e) err)
    (logged : List LogLine) (world : W) (evs : List Event) (identity : String) :
    (deliver (Event.newLeader identity) (deliverAll evs (Process.start e logged world))).e
        = (deliverAll evs (Process.start e logged world)).e ∧
      (IsLeader (deliver (Event.newLeader identity)
          (deliverAll evs (Process.start e logged world)))).1
        = (IsLeader (deliverAll evs (Process.start e logged world))).1 ∧
      (deliver (Event.newLeader identity) (deliverAll evs (Process.start e logged world))).world
        = (deliverAll evs (Process.start e logged world)).world ∧
      (deliver (Event.newLeader identity) (deliverAll evs (Process.start e logged world))).calls
        = (deliverAll evs (Process.start e logged world)).calls ∧
      ∃ line : LogLine, line.level = Level.info ∧
        (deliver (Event.newLeader identity)
            (deliverAll evs (Process.start e logged world))).logged
          = (deliverAll evs (Process.start e logged world)).logged ++ [line] := by
  obtain ⟨-, -, -, -, -, -, -, -, -, hw⟩ := New_ret_inv h
  have hw0 : Wired (Process.start e logged world).e := hw
  have hwp := Wired_deliverAll evs _ hw0
  rw [deliver_newLeader_eq _ identity hwp]
  refine ⟨rfl, rfl, rfl, rfl, ?_⟩
  by_cases hid : identity = (deliverAll evs (Process.start e logged world)).e.lock.Identity
  · exact ⟨_, rfl, by simp only [hid, if_true]; rfl⟩
  · exact ⟨_, rfl, by simp only [hid, if_false]; rfl⟩

theorem OnNewLeader_informational_witness :
    (deliver (Event.newLeader "pod-a")
          (deliverAll [Event.started] (Process.start demoInstance [] 0))).e
        = (deliverAll [Event.started] (Process.start demoInstance [] 0)).e ∧
      (IsLeader (deliver (Event.newLeader "pod-a")
          (deliverAll [Event.started] (Process.start demoInstance [] 0)))).1
        = (IsLeader (deliverAll [Event.started] (Process.start demoInstance [] 0))).1 ∧
      (deliver (Event.newLeader "pod-a")
          (deliverAll [Event.started] (Process.start demoInstance [] 0))).world
        = (deliverAll [Event.started] (Process.start demoInstance [] 0)).world ∧
      (deliver (Event.newLeader "pod-a")
          (deliverAll [Event.started] (Process.start demoInstance [] 0))).calls
        = (deliverAll [Event.started] (Process.start demoInstance [] 0)).calls ∧
      ∃ line : LogLine, line.level = Level.info ∧
        (deliver (Event.newLeader "pod-a")
            (deliverAll [Event.started] (Process.start demoInstance [] 0))).logged
          = (deliverAll [Event.started] (Process.start demoInstance [] 0)).logged ++ [line] :=
  OnNewLeader_informational (specLib (Mem Nat)) "kyverno" "kyverno-system" demoClient "pod-a"
    (some demoStart) (some demoStop) rootLogger demoInstance none demoInstance_built [] 0
    [Event.started] "pod-a"

/-- C10: for an instance returned by `New`, in every reachable state, an `OnStartedLeading`
event sets the flag and then calls start-work, which sees `IsLeader()` true; an
`OnStoppedLeading` event clears the flag and then calls stop-work, which sees
`IsLeader()` false; when the callback is nil the flag is updated all the same and nothing
is invoked. -/
theorem flag_stored_before_work {W : Type} (lib : ClientGo (Mem W))
    (name namespace_ : String) (kubeClient : KubeClient) (id : String)
    (startWork stopWork : Option (Bool → W → W)) (log : Logger) (e : config W)
    (err : Option Error)
    (h : New lib name namespace_ kubeClient id startWork stopWork log
      = Outcome.ret (some e) err)
    (logged : List LogLine) (world : W) (evs : List Event) :
    ((IsLeader (deliver Event.started (deliverAll evs (Process.start e logged world)))).1 = true ∧
      (IsLeader (deliver Event.stopped (deliverAll evs (Process.start e logged world)))).1
        = false) ∧
    (∀ f, startWork = some f →
      (deliver Event.started (deliverAll evs (Process.start e logged world))).world
          = f true (deliverAll evs (Process.start e logged world)).world ∧
        (deliver Event.started (deliverAll evs (Process.start e logged world))).calls
          = (deliverAll evs (Process.start e logged world)).calls
            ++ [{ work := Work.start, sawLeader := true }]) ∧
    (∀ g, stopWork = some g →
      (deliver Event.stopped (deliverAll evs (Process.start e logged world))).world
          = g false (deliverAll evs (Process.start e logged world)).world ∧
        (deliver Event.stopped (deliverAll evs (Process.start e logged world))).calls
          = (deliverAll evs (Process.start e logged world)).calls
            ++ [{ work := Work.stop, sawLeader := false }]) ∧
    (startWork = none →
      (deliver Event.started (deliverAll evs (Process.start e logged world))).world
          = (deliverAll evs (Process.start e logged world)).world ∧
        (deliver Event.started (deliverAll evs (Process.start e logged world))).calls
          = (deliverAll evs (Process.start e logged world)).calls) ∧
    (stopWork = none →
      (deliver Event.stopped (deliverAll evs (Process.start e logged world))).world
          = (deliverAll evs (Process.start e logged world)).world ∧
        (deliver Event.stopped (deliverAll evs (Process.start e logged world))).calls
          = (deliverAll evs (Process.start e logged world)).calls) := by
  obtain ⟨-, -, -, -, -, hs, ht, -, -, hw⟩ := New_ret_inv h
  have hw0 : Wired (Process.start e logged world).e := hw
  have hwp := Wired_deliverAll evs _ hw0
  have hfr := deliverAll_frame evs (Process.start e logged world)
  have hsp : (deliverAll evs (Process.start e logged world)).e.startWork = startWork := by
    rw [hfr]; exact hs
  have htp : (deliverAll evs (Process.start e logged world)).e.stopWork = stopWork := by
    rw [hfr]; exact ht
  refine ⟨⟨IsLeader_deliver_started _ hwp, IsLeader_deliver_stopped _ hwp⟩, ?_, ?_, ?_, ?_⟩
  · intro f hf
    rw [deliver_started_some _ f hwp (hsp.trans hf)]
    exact ⟨rfl, rfl⟩
  · intro g hg
    rw [deliver_stopped_some _ g hwp (htp.trans hg)]
    exact ⟨rfl, rfl⟩
  · intro hf
    rw [deliver_started_none _ hwp (hsp.trans hf)]
    exact ⟨rfl, rfl⟩
  · intro hg
    rw [deliver_stopped_none _ hwp (htp.trans hg)]
    exact ⟨rfl, rfl⟩

theorem flag_stored_before_work_witness :
    ((IsLeader (deliver Event.started demoRound)).1 = true ∧
      (IsLeader (deliver Event.stopped demoRound)).1 = false) ∧
    (∀ f, some demoStart = some f →
      (deliver Event.started demoRound).world = f true demoRound.world ∧
        (deliver Event.started demoRound).calls
          = demoRound.calls ++ [{ work := Work.start, sawLeader := true }]) ∧
    (∀ g, some demoStop = some g →
      (deliver Event.stopped demoRound).world = g false demoRound.world ∧
        (deliver Event.stopped demoRound).calls
          = demoRound.calls ++ [{ work := Work.stop, sawLeader := false }]) ∧
    (some demoStart = none →
      (deliver Event.started demoRound).world = demoRound.world ∧
        (deliver Event.started demoRound).calls = demoRound.calls) ∧
    (some demoStop = none →
      (deliver Event.stopped demoRound).world = demoRound.world ∧
        (deliver Event.stopped demoRound).calls = demoRound.calls) :=
  flag_stored_before_work (specLib (Mem Nat)) "kyverno" "kyverno-system" demoClient "pod-a"
    (some demoStart) (some demoStop) rootLogger demoInstance none demoInstance_built [] 0
    [Event.started, Event.stopped]

end leaderelection
